import Mathlib

/-!
Verification development for the User entity descriptor
(packages/backend-api/src/models/user.ts): field values, the
requireEmailForHumans validation rule, the index declarations, the
lifecycle hook table, the isUser shape predicate, and a model of the
storage layer the descriptor is handed to.
-/

/-! ## User groups (source constants) -/

def USER_GROUP_GENERAL : String := "general"

def USER_GROUP_ADMIN : String := "admin"

def USER_GROUP_SERVICE : String := "service"

def USER_GROUP_YOUTUBE : String := "youtube"

def USER_GROUP_MODERATOR : String := "moderator"

def USER_GROUPS : List String :=
  [USER_GROUP_GENERAL, USER_GROUP_ADMIN, USER_GROUP_SERVICE,
   USER_GROUP_YOUTUBE, USER_GROUP_MODERATOR]

/-! ## Attribute values

The email column is read by the validation rule as a raw JavaScript value
(it may be absent, null, or of a non-string type before validation).
`AttrValue.strObj` models a boxed String object: its string rendering is
the wrapped string, but its typeof is not the primitive string type. -/

inductive AttrValue where
  | null
  | undefined
  | str (s : String)
  | strObj (s : String)
  | num (n : Int)
  | bool (b : Bool)
deriving DecidableEq, Repr

/-- AttrValue.isStr is true exactly on primitive string values. -/
def AttrValue.isStr : AttrValue → Bool
  | AttrValue.str _ => true
  | _ => false

/-- JavaScript ToString rendering of the modelled attribute values. -/
def attrToString : AttrValue → String
  | AttrValue.null => "null"
  | AttrValue.undefined => "undefined"
  | AttrValue.str s => s
  | AttrValue.strObj s => s
  | AttrValue.num n => toString n
  | AttrValue.bool b => if b then "true" else "false"

/-! ## The extra payload (source interfaces IScorerExtra, IIntegrationExtra,
IServiceExtra); `other` covers any further JSON shape, since the column is
an unvalidated JSON column. -/

structure IRequestedAttribute where
  scoreType : Option String
  scoreThreshold : Option Int

structure IScorerExtra where
  endpointType : String
  apiKey : String
  endpoint : String
  userAgent : Option String
  attributes : Option (List (String × IRequestedAttribute))

structure IIntegrationExtra where
  token : Option String
  lastError : Option (String × String)
  isActive : Option Bool

structure IServiceExtra where
  jwt : String

inductive ExtraPayload where
  | scorer (x : IScorerExtra)
  | integration (x : IIntegrationExtra)
  | service (x : IServiceExtra)
  | other (json : String)

/-! ## User records (source interface IUserAttributes) -/

structure UserRecord where
  id : Option Nat
  group : String
  name : String
  email : AttrValue
  isActive : Bool
  avatarURL : Option String
  extra : Option ExtraPayload

/-! ## Email grammar (external validation library)

Modelled from the spec: the external validation library (spec section 6)
supplies an RFC-grammar email check; the component depends only on its
boolean valid/invalid outcome. The model accepts strings of the form
local-part at domain, where the local part is nonempty, at most 64
characters, and made of nonempty dot-separated atoms over the usual atom
alphabet, and the domain is nonempty and made of nonempty dot-separated
labels of alphanumerics and hyphens. -/

def isEmailLocalChar (c : Char) : Bool :=
  c.isAlphanum || c = '!' || c = '#' || c = '$' || c = '%' || c = '&' ||
    c = '*' || c = '+' || c = '-' || c = '/' || c = '=' || c = '?' ||
    c = '^' || c = '_' || c = '~'

def isEmailDomainChar (c : Char) : Bool :=
  c.isAlphanum || c = '-'

/-- Splits a character list on a separator character; a list with no
separator yields a single part, and n separators yield n + 1 parts. -/
def splitOnChar (sep : Char) : List Char → List (List Char)
  | [] => [[]]
  | c :: cs =>
      match splitOnChar sep cs with
      | [] => if c = sep then [[], []] else [[c]]
      | p :: ps => if c = sep then [] :: p :: ps else (c :: p) :: ps

def emailAtomsOk (p : Char → Bool) (part : List Char) : Bool :=
  (splitOnChar '.' part).all fun a => !a.isEmpty && a.all p

def isEmailString (s : String) : Bool :=
  match splitOnChar '@' s.toList with
  | [lp, dp] =>
      !lp.isEmpty && decide (lp.length ≤ 64) && emailAtomsOk isEmailLocalChar lp &&
      !dp.isEmpty && decide (dp.length ≤ 255) && emailAtomsOk isEmailDomainChar dp
  | _ => false

/-- Model of the external validation call
Joi.validate(value, Joi.string().email().required(), convert false):
with conversion disabled there is no implicit type coercion, so only a
primitive string can satisfy the string schema; a missing value fails the
required marker, and a string must match the email grammar. The result is
the error slot of the returned object: none means valid. -/
def joiValidateEmailRequired : AttrValue → Option String
  | AttrValue.str s =>
      if isEmailString s then none else some "must be a valid email"
  | AttrValue.undefined => some "is required"
  | _ => some "must be a string"

/-! ## The validation rule (source requireEmailForHumans) -/

def requireEmailForHumans (u : UserRecord) : Except String Unit :=
  let group := u.group
  if group = USER_GROUP_GENERAL ∨ group = USER_GROUP_ADMIN then
    let validEmail := joiValidateEmailRequired u.email
    match validEmail with
    | some _ => Except.error "Email address required for human users"
    | none => Except.ok ()
  else
    Except.ok ()

/-- The validate block of the model definition: its only member is
requireEmailForHumans. -/
def validate (u : UserRecord) : Except String Unit :=
  requireEmailForHumans u

example : requireEmailForHumans
    { id := none, group := "general", name := "Alice",
      email := AttrValue.str "a@example.com", isActive := true,
      avatarURL := none, extra := none } = Except.ok () := rfl

example : requireEmailForHumans
    { id := none, group := "general", name := "Bob",
      email := AttrValue.null, isActive := true,
      avatarURL := none, extra := none } =
    Except.error "Email address required for human users" := rfl

example : requireEmailForHumans
    { id := none, group := "service", name := "svc-bot",
      email := AttrValue.null, isActive := true,
      avatarURL := none, extra := none } = Except.ok () := rfl

example : isEmailString "not-an-email" = false := by decide

example : isEmailString "a@example.com" = true := by decide

/-! ## Index declarations (source indexes option) -/

structure IndexDecl where
  declName : Option String := none
  fields : List String
  unique : Bool := false
deriving DecidableEq, Repr

/-- The four index declarations of the model definition, in source order. -/
def userIndexes : List IndexDecl :=
  [{ declName := some "users_email", fields := ["email"] },
   { declName := some "group_index", fields := ["group"] },
   { declName := some "isActive_index", fields := ["isActive"] },
   { fields := ["email", "group"], unique := true }]

/-! ## Lifecycle hook table (source hooks option) -/

inductive Notifier where
  | updateHappened
deriving DecidableEq, Repr

inductive HookKind where
  | afterCreate
  | afterDestroy
  | afterUpdate
  | afterBulkCreate
  | afterBulkUpdate
  | afterBulkDestroy
deriving DecidableEq, Repr

/-- The hook table of the model definition: every lifecycle hook is bound
to the external updateHappened notifier. -/
def hooks : List (HookKind × Notifier) :=
  [(HookKind.afterCreate, Notifier.updateHappened),
   (HookKind.afterDestroy, Notifier.updateHappened),
   (HookKind.afterUpdate, Notifier.updateHappened),
   (HookKind.afterBulkCreate, Notifier.updateHappened),
   (HookKind.afterBulkUpdate, Notifier.updateHappened),
   (HookKind.afterBulkDestroy, Notifier.updateHappened)]

/-! ## Storage layer model

Modelled from the spec: the storage layer (spec sections 4 to 6) runs the
validate block immediately before an insert or update is committed,
enforces the declared composite (email, group) uniqueness constraint,
applies the mutation atomically, and then fires the hook bound to the
lifecycle event; a failed mutation persists nothing and fires no hook.
An execution is recorded as the resulting state, the ordered list of
observable events, and an optional error. -/

inductive Event where
  | applied
  | notified (n : Notifier)
deriving DecidableEq, Repr

structure DBState where
  rows : List UserRecord

structure MutationResult where
  state : DBState
  events : List Event
  error : Option String

/-- sameEmailGroup is true when two records collide on the composite
(email, group) uniqueness key. -/
def sameEmailGroup (a b : UserRecord) : Bool :=
  decide (a.email = b.email) && decide (a.group = b.group)

def conflictsWith (rows : List UserRecord) (r : UserRecord) : Bool :=
  rows.any fun q => sameEmailGroup q r

/-- Firing a lifecycle hook invokes the notifier bound to it in the hook
table, if any. -/
def fireHook (k : HookKind) : List Event :=
  match hooks.lookup k with
  | some n => [Event.notified n]
  | none => []

/-- Modelled from the spec: single-row create. -/
def createUser (st : DBState) (r : UserRecord) : MutationResult :=
  match validate r with
  | Except.error e => { state := st, events := [], error := some e }
  | Except.ok _ =>
      if conflictsWith st.rows r then
        { state := st, events := [],
          error := some "unique constraint violation on email and group" }
      else
        { state := { rows := st.rows ++ [r] },
          events := Event.applied :: fireHook HookKind.afterCreate,
          error := none }

/-- Conflict check for an update of row i: any other row colliding with
the candidate on the uniqueness key. -/
def conflictsWithExcept (rows : List UserRecord) (i : Nat) (r : UserRecord) : Bool :=
  rows.enum.any fun p => p.1 != i && sameEmailGroup p.2 r

/-- Modelled from the spec: single-row update of the row at index i. -/
def updateUser (st : DBState) (i : Nat) (r : UserRecord) : MutationResult :=
  if i < st.rows.length then
    match validate r with
    | Except.error e => { state := st, events := [], error := some e }
    | Except.ok _ =>
        if conflictsWithExcept st.rows i r then
          { state := st, events := [],
            error := some "unique constraint violation on email and group" }
        else
          { state := { rows := st.rows.set i r },
            events := Event.applied :: fireHook HookKind.afterUpdate,
            error := none }
  else
    { state := st, events := [], error := some "row not found" }

/-- Modelled from the spec: single-row hard delete of the row at index i. -/
def destroyUser (st : DBState) (i : Nat) : MutationResult :=
  if i < st.rows.length then
    { state := { rows := st.rows.eraseIdx i },
      events := Event.applied :: fireHook HookKind.afterDestroy,
      error := none }
  else
    { state := st, events := [], error := some "row not found" }

def firstValidationError (rs : List UserRecord) : Option String :=
  rs.findSome? fun r =>
    match validate r with
    | Except.error e => some e
    | Except.ok _ => none

/-- Checks that the new rows collide neither with the existing rows nor
with each other on the uniqueness key. -/
def noNewConflicts (existing : List UserRecord) : List UserRecord → Bool
  | [] => true
  | r :: rest =>
      !conflictsWith existing r && !conflictsWith rest r &&
        noNewConflicts existing rest

/-- Modelled from the spec: bulk create of a batch of rows; the notifier
fires once per logical mutation batch. -/
def bulkCreateUsers (st : DBState) (rs : List UserRecord) : MutationResult :=
  match firstValidationError rs with
  | some e => { state := st, events := [], error := some e }
  | none =>
      if noNewConflicts st.rows rs then
        { state := { rows := st.rows ++ rs },
          events := Event.applied :: fireHook HookKind.afterBulkCreate,
          error := none }
      else
        { state := st, events := [],
          error := some "unique constraint violation on email and group" }

def pairwiseNoConflicts : List UserRecord → Bool
  | [] => true
  | r :: rest => !conflictsWith rest r && pairwiseNoConflicts rest

/-- Modelled from the spec: bulk update applying a field transformation to
every row; the notifier fires once per logical mutation batch. -/
def bulkUpdateUsers (st : DBState) (f : UserRecord → UserRecord) : MutationResult :=
  let newRows := st.rows.map f
  match firstValidationError newRows with
  | some e => { state := st, events := [], error := some e }
  | none =>
      if pairwiseNoConflicts newRows then
        { state := { rows := newRows },
          events := Event.applied :: fireHook HookKind.afterBulkUpdate,
          error := none }
      else
        { state := st, events := [],
          error := some "unique constraint violation on email and group" }

/-- Modelled from the spec: bulk hard delete of every row matching a
predicate; the notifier fires once per logical mutation batch. -/
def bulkDestroyUsers (st : DBState) (p : UserRecord → Bool) : MutationResult :=
  { state := { rows := st.rows.filter fun r => !(p r) },
    events := Event.applied :: fireHook HookKind.afterBulkDestroy,
    error := none }

/-! ## Concrete records used as evaluation inputs -/

def uAlice : UserRecord :=
  { id := some 1, group := USER_GROUP_GENERAL, name := "Alice",
    email := AttrValue.str "a@example.com", isActive := true,
    avatarURL := none, extra := none }

def uAdminSameEmail : UserRecord :=
  { id := some 2, group := USER_GROUP_ADMIN, name := "Alan",
    email := AttrValue.str "a@example.com", isActive := true,
    avatarURL := none, extra := none }

def uBobNullEmail : UserRecord :=
  { id := some 3, group := USER_GROUP_GENERAL, name := "Bob",
    email := AttrValue.null, isActive := true,
    avatarURL := none, extra := none }

def uServiceBot : UserRecord :=
  { id := some 4, group := USER_GROUP_SERVICE, name := "svc-bot",
    email := AttrValue.null, isActive := true,
    avatarURL := none, extra := none }

example : (createUser { rows := [] } uAlice).error = none := rfl

example :
    (createUser { rows := [uAlice] } uAlice).error =
      some "unique constraint violation on email and group" := rfl

example :
    (createUser (createUser { rows := [] } uAlice).state uAdminSameEmail).error
      = none := rfl

/-! ## The isUser shape predicate (source isUser)

The source probes an arbitrary JavaScript value:
return instance and-then instance.get and-then the double negation of
instance.group. A JavaScript conjunction returns its first falsy operand,
or its last operand; reading a property of null or undefined throws, and
reading a missing property of any other value yields undefined. The
evaluation is modelled in an exception monad so that a thrown error is
observable. -/

inductive JSVal where
  | null
  | undefined
  | bool (b : Bool)
  | num (n : Int)
  | str (s : String)
  | obj (fields : List (String × JSVal))
  | func (fname : String)

/-- JavaScript truthiness of the modelled values. -/
def truthy : JSVal → Bool
  | JSVal.null => false
  | JSVal.undefined => false
  | JSVal.bool b => b
  | JSVal.num n => n != 0
  | JSVal.str s => s != ""
  | JSVal.obj _ => true
  | JSVal.func _ => true

def lookupField : List (String × JSVal) → String → JSVal
  | [], _ => JSVal.undefined
  | (k, v) :: rest, key => if k = key then v else lookupField rest key

/-- JavaScript property read: throws on null and undefined, looks the key
up on an object, and yields undefined on every other value. -/
def getField : JSVal → String → Except String JSVal
  | JSVal.null, _ => Except.error "TypeError: cannot read property of null"
  | JSVal.undefined, _ =>
      Except.error "TypeError: cannot read property of undefined"
  | JSVal.obj fields, key => Except.ok (lookupField fields key)
  | _, _ => Except.ok JSVal.undefined

/-- The body of the source isUser: the short-circuit conjunction of the
value itself, its get attribute, and the double negation of its group
attribute. -/
def isUser (v : JSVal) : Except String JSVal :=
  if truthy v then
    match getField v "get" with
    | Except.error e => Except.error e
    | Except.ok g =>
        if truthy g then
          match getField v "group" with
          | Except.error e => Except.error e
          | Except.ok grp => Except.ok (JSVal.bool (truthy grp))
        else
          Except.ok g
  else
    Except.ok v

example :
    isUser (JSVal.obj [("group", JSVal.str "admin"), ("get", JSVal.func "fn")])
      = Except.ok (JSVal.bool true) := rfl

example : isUser JSVal.null = Except.ok JSVal.null := rfl

example : isUser (JSVal.obj []) = Except.ok JSVal.undefined := rfl

/-! ## Helper lemmas -/

theorem req_congr (r₁ r₂ : UserRecord) (hg : r₁.group = r₂.group)
    (he : r₁.email = r₂.email) :
    requireEmailForHumans r₁ = requireEmailForHumans r₂ := by
  simp only [requireEmailForHumans]
  rw [hg, he]

theorem req_fail_of_joi_some (r : UserRecord) (m : String)
    (hg : r.group = USER_GROUP_GENERAL ∨ r.group = USER_GROUP_ADMIN)
    (hj : joiValidateEmailRequired r.email = some m) :
    requireEmailForHumans r =
      Except.error "Email address required for human users" := by
  simp only [requireEmailForHumans]
  rw [if_pos hg, hj]

theorem req_ok_of_not_human (r : UserRecord)
    (hg : ¬(r.group = USER_GROUP_GENERAL ∨ r.group = USER_GROUP_ADMIN)) :
    requireEmailForHumans r = Except.ok () := by
  simp only [requireEmailForHumans]
  rw [if_neg hg]

/-! ## Claim theorems -/

/-- C1: for every candidate write whose group is general or admin and whose
email is missing (undefined), null, or a string that is not a valid email
address, requireEmailForHumans rejects the write by raising the error
"Email address required for human users"; consequently neither a create
nor an update persists anything: the state is unchanged, the mutation
reports an error, and no event is observed. -/
theorem human_email_validation_rejects (r : UserRecord) (st : DBState) (i : Nat)
    (hg : r.group = USER_GROUP_GENERAL ∨ r.group = USER_GROUP_ADMIN)
    (he : r.email = AttrValue.undefined ∨ r.email = AttrValue.null ∨
      ∃ s, r.email = AttrValue.str s ∧ isEmailString s = false) :
    requireEmailForHumans r =
      Except.error "Email address required for human users" ∧
    (createUser st r).state = st ∧ (createUser st r).error ≠ none ∧
    (createUser st r).events = [] ∧
    (updateUser st i r).state = st ∧ (updateUser st i r).error ≠ none ∧
    (updateUser st i r).events = [] := by
  have hj : ∃ m, joiValidateEmailRequired r.email = some m := by
    rcases he with h | h | ⟨s, hs, hval⟩
    · exact ⟨"is required", by rw [h]; rfl⟩
    · exact ⟨"must be a string", by rw [h]; rfl⟩
    · exact ⟨"must be a valid email", by
        rw [hs]; simp [joiValidateEmailRequired, hval]⟩
  obtain ⟨m, hm⟩ := hj
  have hreq := req_fail_of_joi_some r m hg hm
  have hval : validate r =
      Except.error "Email address required for human users" := hreq
  refine ⟨hreq, ?_, ?_, ?_, ?_, ?_, ?_⟩
  · simp [createUser, hval]
  · simp [createUser, hval]
  · simp [createUser, hval]
  · by_cases hi : i < st.rows.length <;> simp [updateUser, hi, hval]
  · by_cases hi : i < st.rows.length <;> simp [updateUser, hi, hval]
  · by_cases hi : i < st.rows.length <;> simp [updateUser, hi, hval]

/-- C1 witness: the theorem applied to the concrete general-group record
with a null email, against the empty store. -/
theorem human_email_validation_rejects_witness :
    requireEmailForHumans uBobNullEmail =
      Except.error "Email address required for human users" ∧
    (createUser { rows := [] } uBobNullEmail).state = { rows := [] } ∧
    (createUser { rows := [] } uBobNullEmail).error ≠ none ∧
    (createUser { rows := [] } uBobNullEmail).events = [] ∧
    (updateUser { rows := [] } 0 uBobNullEmail).state = { rows := [] } ∧
    (updateUser { rows := [] } 0 uBobNullEmail).error ≠ none ∧
    (updateUser { rows := [] } 0 uBobNullEmail).events = [] :=
  human_email_validation_rejects uBobNullEmail { rows := [] } 0
    (Or.inl rfl) (Or.inr (Or.inl rfl))

/-- C2: for every candidate write whose group is neither general nor admin,
requireEmailForHumans is a no-op: it raises no error regardless of the
email field, null included. -/
theorem nonhuman_email_rule_noop (r : UserRecord)
    (h1 : r.group ≠ USER_GROUP_GENERAL) (h2 : r.group ≠ USER_GROUP_ADMIN) :
    requireEmailForHumans r = Except.ok () := by
  apply req_ok_of_not_human
  rintro (h | h)
  · exact h1 h
  · exact h2 h

/-- C2 witness: the theorem applied to the concrete service-group record
with a null email. -/
theorem nonhuman_email_rule_noop_witness :
    requireEmailForHumans uServiceBot = Except.ok () :=
  nonhuman_email_rule_noop uServiceBot (by decide) (by decide)

/-- C9: the validation outcome is a function of the candidate record's
group and email alone: two records agreeing on those two fields receive
the same outcome, whatever their other fields hold; the rule itself
returns only a pass/fail decision and modifies nothing. -/
theorem validation_depends_only_on_group_email (r₁ r₂ : UserRecord)
    (hg : r₁.group = r₂.group) (he : r₁.email = r₂.email) :
    requireEmailForHumans r₁ = requireEmailForHumans r₂ :=
  req_congr r₁ r₂ hg he

/-- C9 witness: the theorem applied to two concrete records that agree on
group and email but differ on id, name, isActive, avatarURL and extra. -/
theorem validation_depends_only_on_group_email_witness :
    requireEmailForHumans uAlice =
      requireEmailForHumans
        { id := some 99, group := USER_GROUP_GENERAL, name := "Alicia",
          email := AttrValue.str "a@example.com", isActive := false,
          avatarURL := some "https://img.example.com/a.png",
          extra := some (ExtraPayload.service { jwt := "tok" }) } :=
  validation_depends_only_on_group_email uAlice
    { id := some 99, group := USER_GROUP_GENERAL, name := "Alicia",
      email := AttrValue.str "a@example.com", isActive := false,
      avatarURL := some "https://img.example.com/a.png",
      extra := some (ExtraPayload.service { jwt := "tok" }) } rfl rfl

theorem getField_ok_of_truthy (v : JSVal) (k : String) (h : truthy v = true) :
    ∃ w, getField v k = Except.ok w := by
  cases v with
  | null => simp [truthy] at h
  | undefined => simp [truthy] at h
  | obj fields => exact ⟨lookupField fields k, rfl⟩
  | bool b => exact ⟨JSVal.undefined, rfl⟩
  | num n => exact ⟨JSVal.undefined, rfl⟩
  | str s => exact ⟨JSVal.undefined, rfl⟩
  | func fname => exact ⟨JSVal.undefined, rfl⟩

/-- C3 counterexample: at the concrete input null, isUser evaluates to
null itself (the first falsy operand of the short-circuit conjunction),
which is not the Boolean false; so the claim that isUser returns false for
null fails as literally stated. -/
theorem isUser_null_returns_null_not_false :
    isUser JSVal.null = Except.ok JSVal.null ∧
    (Except.ok JSVal.null : Except String JSVal) ≠
      Except.ok (JSVal.bool false) ∧
    isUser (JSVal.obj []) = Except.ok JSVal.undefined ∧
    (Except.ok JSVal.undefined : Except String JSVal) ≠
      Except.ok (JSVal.bool false) := by
  refine ⟨rfl, ?_, rfl, ?_⟩
  · intro h
    injection h with h
    exact JSVal.noConfusion h
  · intro h
    injection h with h
    exact JSVal.noConfusion h

/-- C3 amended: isUser returns the Boolean true only if the value is
non-null, its get attribute reads back truthy, and its group attribute
reads back truthy; on the concrete object carrying a truthy group and a
get capability it returns true; and for null, for the empty object, and
for any value whose get attribute is falsy, it returns a falsy value (the
first falsy operand of the conjunction, e.g. null or undefined), which
need not be the Boolean false. -/
theorem isUser_heuristic_contract (v g : JSVal)
    (hget : getField v "get" = Except.ok g) :
    (isUser v = Except.ok (JSVal.bool true) →
      v ≠ JSVal.null ∧ truthy g = true ∧
      ∃ grp, getField v "group" = Except.ok grp ∧ truthy grp = true) ∧
    (truthy g = false → ∃ r, isUser v = Except.ok r ∧ truthy r = false) ∧
    isUser (JSVal.obj [("group", JSVal.str "admin"), ("get", JSVal.func "fn")])
      = Except.ok (JSVal.bool true) ∧
    (∃ r, isUser JSVal.null = Except.ok r ∧ truthy r = false) ∧
    (∃ r, isUser (JSVal.obj []) = Except.ok r ∧ truthy r = false) := by
  refine ⟨?_, ?_, rfl, ⟨JSVal.null, rfl, rfl⟩, ⟨JSVal.undefined, rfl, rfl⟩⟩
  · intro h
    by_cases htv : truthy v = true
    · refine ⟨?_, ?_⟩
      · intro hv
        rw [hv] at htv
        exact Bool.noConfusion htv
      · by_cases htg : truthy g = true
        · obtain ⟨grp, hgrp⟩ := getField_ok_of_truthy v "group" htv
          simp [isUser, htv, hget, htg, hgrp] at h
          exact ⟨htg, grp, hgrp, h⟩
        · simp [isUser, htv, hget, htg] at h
          rw [h] at htg
          exact absurd rfl htg
    · simp [isUser, htv] at h
      rw [h] at htv
      exact absurd rfl htv
  · intro htg
    by_cases htv : truthy v = true
    · exact ⟨g, by simp [isUser, htv, hget, htg], htg⟩
    · exact ⟨v, by simp [isUser, htv], by simpa using htv⟩

/-- C3 witness: the amended contract applied at the concrete admin-shaped
object carrying a get capability. -/
theorem isUser_heuristic_contract_witness :
    isUser (JSVal.obj [("group", JSVal.str "admin"), ("get", JSVal.func "fn")])
      = Except.ok (JSVal.bool true) :=
  (isUser_heuristic_contract
    (JSVal.obj [("group", JSVal.str "admin"), ("get", JSVal.func "fn")])
    (JSVal.func "fn") rfl).2.2.1

/-- C8: isUser is total and never throws on any modelled value, null and
undefined included: the conjunction short-circuits before any property
access could hit a null-like value, so evaluation always produces a
result, possibly a non-Boolean falsy or truthy one. -/
theorem isUser_never_throws (v : JSVal) : ∃ r, isUser v = Except.ok r := by
  by_cases htv : truthy v = true
  · obtain ⟨g, hg⟩ := getField_ok_of_truthy v "get" htv
    by_cases htg : truthy g = true
    · obtain ⟨grp, hgrp⟩ := getField_ok_of_truthy v "group" htv
      exact ⟨JSVal.bool (truthy grp), by simp [isUser, htv, hg, htg, hgrp]⟩
    · exact ⟨g, by simp [isUser, htv, hg, htg]⟩
  · exact ⟨v, by simp [isUser, htv]⟩

/-- C8 witness: totality applied at the concrete inputs null and
undefined. -/
theorem isUser_never_throws_witness :
    (∃ r, isUser JSVal.null = Except.ok r) ∧
    (∃ r, isUser JSVal.undefined = Except.ok r) :=
  ⟨isUser_never_throws JSVal.null, isUser_never_throws JSVal.undefined⟩

theorem fireHook_eq (k : HookKind) :
    fireHook k = [Event.notified Notifier.updateHappened] := by
  cases k <;> rfl

/-- notifierContract: a successful mutation emits exactly the applied
mutation followed by a single updateHappened notification, in that order;
a failed mutation emits no event at all. -/
def notifierContract (res : MutationResult) : Prop :=
  (res.error = none →
    res.events = [Event.applied, Event.notified Notifier.updateHappened]) ∧
  (res.error ≠ none → res.events = [])

/-- C4: every mutation entry point — create, update, destroy, bulk create,
bulk update and bulk destroy — satisfies the notifier contract: after a
successful mutation the updateHappened notifier has been invoked exactly
once per logical mutation batch and strictly after the applied mutation,
and a failed mutation invokes it not at all. -/
theorem update_notifier_fires_once (st : DBState) (r : UserRecord) (i : Nat)
    (rs : List UserRecord) (f : UserRecord → UserRecord)
    (p : UserRecord → Bool) :
    notifierContract (createUser st r) ∧
    notifierContract (updateUser st i r) ∧
    notifierContract (destroyUser st i) ∧
    notifierContract (bulkCreateUsers st rs) ∧
    notifierContract (bulkUpdateUsers st f) ∧
    notifierContract (bulkDestroyUsers st p) := by
  refine ⟨?_, ?_, ?_, ?_, ?_, ?_⟩
  · cases hv : validate r with
    | error e => simp [notifierContract, createUser, hv]
    | ok u =>
        by_cases hc : conflictsWith st.rows r = true <;>
          simp [notifierContract, createUser, hv, hc, fireHook_eq]
  · by_cases hi : i < st.rows.length
    · cases hv : validate r with
      | error e => simp [notifierContract, updateUser, hi, hv]
      | ok u =>
          by_cases hc : conflictsWithExcept st.rows i r = true <;>
            simp [notifierContract, updateUser, hi, hv, hc, fireHook_eq]
    · simp [notifierContract, updateUser, hi]
  · by_cases hi : i < st.rows.length <;>
      simp [notifierContract, destroyUser, hi, fireHook_eq]
  · cases hv : firstValidationError rs with
    | some e => simp [notifierContract, bulkCreateUsers, hv]
    | none =>
        by_cases hc : noNewConflicts st.rows rs = true <;>
          simp [notifierContract, bulkCreateUsers, hv, hc, fireHook_eq]
  · cases hv : firstValidationError (st.rows.map f) with
    | some e => simp [notifierContract, bulkUpdateUsers, hv]
    | none =>
        by_cases hc : pairwiseNoConflicts (st.rows.map f) = true <;>
          simp [notifierContract, bulkUpdateUsers, hv, hc, fireHook_eq]
  · simp [notifierContract, bulkDestroyUsers, fireHook_eq]

/-- C4 witness: the contract evaluated on concrete mutations against a
one-row store. -/
theorem update_notifier_fires_once_witness :
    notifierContract (createUser { rows := [uAlice] } uServiceBot) ∧
    notifierContract (updateUser { rows := [uAlice] } 0 uAlice) ∧
    notifierContract (destroyUser { rows := [uAlice] } 0) ∧
    notifierContract (bulkCreateUsers { rows := [uAlice] } [uServiceBot]) ∧
    notifierContract (bulkUpdateUsers { rows := [uAlice] } id) ∧
    notifierContract (bulkDestroyUsers { rows := [uAlice] } fun u => u.isActive) :=
  update_notifier_fires_once { rows := [uAlice] } uServiceBot 0 [uServiceBot]
    id (fun u => u.isActive) |>.imp id
    (And.imp (fun h => h) (And.imp (fun h => h) (And.imp
      (fun h => h) (And.imp (fun h => h) (fun h => h)))))

/-- uniquePairs: no two rows of the store collide on the composite
(email, group) uniqueness key. -/
def uniquePairs (rows : List UserRecord) : Prop :=
  rows.Pairwise fun a b => sameEmailGroup a b = false

/-- C5: the declared composite unique constraint keeps (email, group)
pairs pairwise distinct: a create preserves the invariant, and a second
write that would persist a conflicting pair is rejected with the state
unchanged. -/
theorem email_group_pair_unique (st : DBState) (r : UserRecord)
    (hinv : uniquePairs st.rows) :
    uniquePairs (createUser st r).state.rows ∧
    (conflictsWith st.rows r = true →
      (createUser st r).state = st ∧ (createUser st r).error ≠ none) := by
  cases hv : validate r with
  | error e =>
      refine ⟨by simpa [createUser, hv] using hinv, fun _ => ?_⟩
      constructor <;> simp [createUser, hv]
  | ok u =>
      by_cases hc : conflictsWith st.rows r = true
      · refine ⟨by simpa [createUser, hv, hc] using hinv, fun _ => ?_⟩
        constructor <;> simp [createUser, hv, hc]
      · refine ⟨?_, fun hcc => absurd hcc hc⟩
        simp only [createUser, hv, hc, if_neg, Bool.false_eq_true,
          not_false_iff, ite_false]
        have hnc : ∀ q ∈ st.rows, sameEmailGroup q r = false := by
          intro q hq
          by_contra hne
          apply hc
          simp only [conflictsWith, List.any_eq_true]
          exact ⟨q, hq, by simpa using hne⟩
        simp only [uniquePairs]
        rw [List.pairwise_append]
        exact ⟨hinv, List.pairwise_singleton _ _,
          fun a ha b hb => by
            rw [List.mem_singleton] at hb
            rw [hb]
            exact hnc a ha⟩

/-- C5 witness: against a store holding one general-group row, creating a
second row with the same email and group is rejected and persists
nothing, and the invariant survives the attempt. -/
theorem email_group_pair_unique_witness :
    uniquePairs (createUser { rows := [uAlice] } uAlice).state.rows ∧
    (conflictsWith ({ rows := [uAlice] } : DBState).rows uAlice = true →
      (createUser { rows := [uAlice] } uAlice).state = { rows := [uAlice] } ∧
      (createUser { rows := [uAlice] } uAlice).error ≠ none) :=
  email_group_pair_unique { rows := [uAlice] } uAlice
    (List.pairwise_singleton _ _)

def uBoxedEmail : UserRecord :=
  { id := some 5, group := USER_GROUP_GENERAL, name := "Boxy",
    email := AttrValue.strObj "a@example.com", isActive := true,
    avatarURL := none, extra := none }

/-- C6: the email validation performs no implicit type coercion: for a
human-group candidate, any email value that is not a primitive string is
rejected, and in particular a boxed String object is rejected by the
string schema even when its string rendering is a syntactically valid
address. -/
theorem email_no_type_coercion (r : UserRecord) (v : AttrValue)
    (hg : r.group = USER_GROUP_GENERAL ∨ r.group = USER_GROUP_ADMIN)
    (hv : r.email = v) (hns : v.isStr = false) :
    requireEmailForHumans r =
      Except.error "Email address required for human users" ∧
    (∀ s, isEmailString s = true →
      joiValidateEmailRequired (AttrValue.strObj s) = some "must be a string") := by
  have hj : ∃ m, joiValidateEmailRequired r.email = some m := by
    rw [hv]
    cases v with
    | str s => simp [AttrValue.isStr] at hns
    | null => exact ⟨"must be a string", rfl⟩
    | undefined => exact ⟨"is required", rfl⟩
    | strObj s => exact ⟨"must be a string", rfl⟩
    | num n => exact ⟨"must be a string", rfl⟩
    | bool b => exact ⟨"must be a string", rfl⟩
  obtain ⟨m, hm⟩ := hj
  exact ⟨req_fail_of_joi_some r m hg hm, fun s _ => rfl⟩

/-- C6 witness: the concrete record carrying the boxed string rendering
"a@example.com" — a valid address as a string — is still rejected. -/
theorem email_no_type_coercion_witness :
    requireEmailForHumans uBoxedEmail =
      Except.error "Email address required for human users" ∧
    joiValidateEmailRequired (AttrValue.strObj "a@example.com") =
      some "must be a string" :=
  ⟨(email_no_type_coercion uBoxedEmail (AttrValue.strObj "a@example.com")
      (Or.inl rfl) rfl rfl).1,
   (email_no_type_coercion uBoxedEmail (AttrValue.strObj "a@example.com")
      (Or.inl rfl) rfl rfl).2 "a@example.com" (by decide)⟩

/-- C7: the extra payload is never inspected by this component: changing
it to any other shape (one of the three conventional payloads, any other
JSON, or null) changes neither the validate block's outcome, nor the
requireEmailForHumans outcome, nor whether a create is accepted. -/
theorem extra_payload_not_validated (r : UserRecord)
    (e₁ e₂ : Option ExtraPayload) (st : DBState) :
    validate { r with extra := e₁ } = validate { r with extra := e₂ } ∧
    requireEmailForHumans { r with extra := e₁ } =
      requireEmailForHumans { r with extra := e₂ } ∧
    (createUser st { r with extra := e₁ }).error =
      (createUser st { r with extra := e₂ }).error := by
  have hreq : requireEmailForHumans { r with extra := e₁ } =
      requireEmailForHumans { r with extra := e₂ } :=
    req_congr _ _ rfl rfl
  refine ⟨hreq, hreq, ?_⟩
  have hc : conflictsWith st.rows { r with extra := e₁ } =
      conflictsWith st.rows { r with extra := e₂ } := rfl
  have hval : validate { r with extra := e₁ } =
      validate { r with extra := e₂ } := hreq
  rw [createUser, createUser, hval, hc]
  cases validate { r with extra := e₂ } with
  | error e => rfl
  | ok u =>
      by_cases hcc : conflictsWith st.rows { r with extra := e₂ } = true <;>
        simp [hcc]

/-- C10: the index declared on email alone is non-unique; the only unique
index declared is the composite one on email and group; and two records
sharing the same email but belonging to different groups can both be
persisted simultaneously. -/
theorem email_alone_not_unique :
    ((userIndexes.filter fun ix => ix.fields == ["email"]).map
        IndexDecl.unique) = [false] ∧
    ((userIndexes.filter fun ix => ix.unique).map IndexDecl.fields) =
      [["email", "group"]] ∧
    uAlice.email = uAdminSameEmail.email ∧
    uAlice.group ≠ uAdminSameEmail.group ∧
    (createUser (createUser { rows := [] } uAlice).state uAdminSameEmail).error
      = none ∧
    (createUser (createUser { rows := [] } uAlice).state
        uAdminSameEmail).state.rows.length = 2 := by
  refine ⟨rfl, rfl, rfl, ?_, rfl, rfl⟩
  exact fun h => absurd h (by decide)
